import Mathlib

/-!
Verification of the checkpoint/resume protocol of the
temporal-langgraph-checkpoint-recovery repository.

Shallow embedding: the Python dataclasses become Lean structures, the
runner / adapter / activity bodies become pure Lean functions over those
structures, heartbeats become explicit lists of checkpoint records, and
multi-attempt execution (host retry with last-heartbeat handback) becomes
a recursive trace function.  Python truthiness on `str | None` fields is
modelled explicitly (`none` and `some ""` are falsy).
-/

namespace CheckpointRecovery

/-- `AgentCheckpoint` from `langgraph_agent/shared.py`. -/
structure AgentCheckpoint where
  thread_id : String
  checkpoint_id : Option String := none
  superstep_count : Nat := 0
  current_node : Option String := none
deriving Repr, DecidableEq

/-- `StepResult` from `langgraph_agent/shared.py`. -/
structure StepResult where
  step_number : Nat
  step_name : String
  checkpoint_id : Option String := none
deriving Repr, DecidableEq

/-- Python truthiness of a `str | None` value: `None` and `""` are falsy. -/
def strTruthy : Option String → Bool
  | none => false
  | some s => !s.isEmpty

/-- The fresh checkpoint `AgentCheckpoint(thread_id=thread_id)` synthesized by
`run_adapter` when no usable checkpoint is handed back. -/
def freshCheckpoint (thread_id : String) : AgentCheckpoint :=
  { thread_id := thread_id }

/-- The checkpoint `run_adapter` keeps after capability filtering
(`runner.py` lines 56-76): a handed-back checkpoint survives only when the
adapter supports checkpointing, otherwise it is discarded (`checkpoint = None`). -/
def restoredFor (handed : Option AgentCheckpoint) (supports : Bool) :
    Option AgentCheckpoint :=
  match handed with
  | some c => if supports then some c else none
  | none => none

/-- Checkpoint update per yielded `StepResult` (`runner.py` lines 96-101):
`superstep_count` and `current_node` are overwritten; `checkpoint_id` is
adopted only when `step_result.checkpoint_id` is truthy. -/
def applyStep (c : AgentCheckpoint) (s : StepResult) : AgentCheckpoint :=
  { c with
    superstep_count := s.step_number
    current_node := some s.step_name
    checkpoint_id :=
      if strTruthy s.checkpoint_id then s.checkpoint_id else c.checkpoint_id }

/-- The immediate per-step heartbeats of one attempt: one heartbeat, carrying
the updated checkpoint, per `StepResult` the adapter yields. -/
def stepHeartbeats (c : AgentCheckpoint) : List StepResult → List AgentCheckpoint
  | [] => []
  | s :: rest =>
      let c2 := applyStep c s
      c2 :: stepHeartbeats c2 rest

/-- All heartbeats `run_adapter` sends in one attempt in order: the initial
heartbeat (the restored-or-fresh checkpoint, `runner.py` line 79) followed by
one immediate heartbeat per yielded step.  `steps` is the list of
`StepResult`s the adapter yields before the attempt completes or crashes. -/
def runnerAttemptHbs (thread : String) (handed : Option AgentCheckpoint)
    (supports : Bool) (steps : List StepResult) : List AgentCheckpoint :=
  let c0 := (restoredFor handed supports).getD (freshCheckpoint thread)
  c0 :: stepHeartbeats c0 steps

/-- The value of the shared `current_checkpoint` cell after the yielded steps
have been folded in: the last heartbeat the host received from the attempt. -/
def runnerFinalCkpt (thread : String) (handed : Option AgentCheckpoint)
    (supports : Bool) (steps : List StepResult) : AgentCheckpoint :=
  steps.foldl applyStep ((restoredFor handed supports).getD (freshCheckpoint thread))

/-! ### SleepingAdapter (`langgraph_agent/adapters/sleeping.py`) -/

/-- `SleepingInput` from `langgraph_agent/shared.py` (sleep time as `ℚ`). -/
structure SleepingInput where
  sleep_seconds : ℚ := 30
  num_steps : Nat := 4
deriving Repr, DecidableEq

/-- `SleepingOutput` from `langgraph_agent/shared.py`. -/
structure SleepingOutput where
  steps_completed : Nat
  total_sleep_time : ℚ
deriving Repr, DecidableEq

/-- Mutable fields of `SleepingAdapter`. -/
structure SleepingState where
  steps_completed : Nat
  total_sleep_time : ℚ
  sleep_seconds : ℚ
  num_steps : Nat
deriving Repr, DecidableEq

/-- `SleepingAdapter.__init__`. -/
def SleepingAdapter.init : SleepingState :=
  { steps_completed := 0, total_sleep_time := 0, sleep_seconds := 30, num_steps := 4 }

/-- `SleepingAdapter.supports_checkpointing` is `False`. -/
def SleepingAdapter.supports_checkpointing : Bool := false

/-- `SleepingAdapter.setup`: ignores `thread_id` and `checkpoint`, resets the
counters to zero. -/
def SleepingAdapter.setup (st : SleepingState) (_thread_id : String)
    (_checkpoint : Option AgentCheckpoint) : SleepingState :=
  { st with steps_completed := 0, total_sleep_time := 0 }

/-- The loop body of `SleepingAdapter.run` over the remaining step numbers:
each iteration sets `_steps_completed` to the step number, adds
`_sleep_seconds` to `_total_sleep_time`, and yields a `StepResult`. -/
def sleepingLoop (s : ℚ) : SleepingState → List Nat → SleepingState × List StepResult
  | st, [] => (st, [])
  | st, step :: rest =>
      let st2 := { st with
        steps_completed := step
        total_sleep_time := st.total_sleep_time + s }
      let (stF, ys) := sleepingLoop s st2 rest
      (stF, ⟨step, "sleep_" ++ toString step, none⟩ :: ys)

/-- `SleepingAdapter.run`: stores the input's parameters, then iterates
`step` over `range(1, num_steps + 1)`.  Returns the final adapter state and
the yielded `StepResult`s. -/
def SleepingAdapter.run (st : SleepingState) (input : SleepingInput) :
    SleepingState × List StepResult :=
  let st0 := { st with
    sleep_seconds := input.sleep_seconds
    num_steps := input.num_steps }
  sleepingLoop input.sleep_seconds st0 (List.range' 1 input.num_steps)

/-- `SleepingAdapter.get_final_output`. -/
def SleepingAdapter.get_final_output (st : SleepingState) : SleepingOutput :=
  { steps_completed := st.steps_completed
    total_sleep_time := st.total_sleep_time }

/-! ### LangGraphAdapter (`langgraph_agent/adapters/langgraph.py`) -/

/-- `AgentInput` as used by `LangGraphAdapter.run`. -/
structure AgentInput where
  query : String
deriving Repr, DecidableEq

/-- `AgentOutput` from `langgraph_agent/shared.py`. -/
structure AgentOutput where
  final_report : String
  thread_id : String
  superstep_count : Nat
deriving Repr, DecidableEq

/-- The fresh graph-state dict `LangGraphAdapter.run` feeds the graph when it
is not resuming. -/
structure GraphInput where
  query : String
  messages : List String
  search_results : String
  analysis : String
  final_report : String
deriving Repr, DecidableEq

/-- Snapshot of the external LangGraph store for one thread, as observed via
`graph.aget_state`: the pending nodes (`state.next`) and the current
checkpoint id in `state.config`. -/
structure GraphStateSnapshot where
  next : List String
  checkpoint_id : Option String
deriving Repr, DecidableEq

/-- Mutable fields of `LangGraphAdapter` relevant to setup and input
selection. -/
structure LGState where
  thread_id : String
  superstep_count : Nat
  resuming : Bool
deriving Repr, DecidableEq

/-- `LangGraphAdapter.setup`: restores `_superstep_count` from the checkpoint
when one is given, then sets `_resuming = bool(state.next)` from the
underlying store's snapshot. -/
def LangGraphAdapter.setup (thread_id : String)
    (checkpoint : Option AgentCheckpoint) (store : GraphStateSnapshot) : LGState :=
  { thread_id := thread_id
    superstep_count :=
      match checkpoint with
      | some c => c.superstep_count
      | none => 0
    resuming := !store.next.isEmpty }

/-- The `stream_input` chosen at the top of `LangGraphAdapter.run`: `None`
when resuming, the fresh graph-state dict otherwise. -/
def LangGraphAdapter.streamInput (st : LGState) (input : AgentInput) :
    Option GraphInput :=
  if st.resuming then none
  else some ⟨input.query, [], "", "", ""⟩

/-- The `StepResult`s `LangGraphAdapter.run` yields, given the per-superstep
stream events `(node_name, checkpoint_id)`: `_superstep_count` is incremented
from `base` once per event, so the step numbers are `base+1, base+2, ...`. -/
def lgSteps (base : Nat) : List (String × Option String) → List StepResult
  | [] => []
  | (nm, cid) :: rest => ⟨base + 1, nm, cid⟩ :: lgSteps (base + 1) rest

/-- Multi-attempt heartbeat trace of one logical thread run with the
checkpoint-capable LangGraph adapter.  Each attempt is `(events, k)`: the
stream events the graph would produce, of which the attempt survives the
first `k` (crash, or completion when `k ≥ events.length`).  The host hands
the last received heartbeat back to the next attempt. -/
def lgTrace (thread : String) :
    Option AgentCheckpoint → List (List (String × Option String) × Nat) →
    List AgentCheckpoint
  | _, [] => []
  | handed, (events, k) :: rest =>
      let c0 := (restoredFor handed true).getD (freshCheckpoint thread)
      let steps := (lgSteps c0.superstep_count events).take k
      runnerAttemptHbs thread handed true steps ++
        lgTrace thread (some (steps.foldl applyStep c0)) rest

/-- The progress counts the host observes, in heartbeat order. -/
def progressCounts (hbs : List AgentCheckpoint) : List Nat :=
  hbs.map AgentCheckpoint.superstep_count

/-! ### pack_order_items (`order_fulfillment/activities.py`) -/

/-- The packing checkpoint record as constructed and consumed by
`pack_order_items`: `last_processed_idx` (an `int`, `-1` before any item),
`last_item_sku`, and the packing-slip id persisted with it. -/
structure PackingCheckpoint where
  last_processed_idx : Int
  last_item_sku : String
  packing_slip_id : Option String
deriving Repr, DecidableEq

/-- `start_idx` computed in `pack_order_items`: `checkpoint.last_processed_idx + 1`
when a checkpoint was restored, `0` otherwise. -/
def packStart (handed : Option PackingCheckpoint) : Int :=
  match handed with
  | some c => c.last_processed_idx + 1
  | none => 0

/-- The slip id carried by the restored checkpoint, if any. -/
def packSlipIn (handed : Option PackingCheckpoint) : Option String :=
  handed.bind PackingCheckpoint.packing_slip_id

/-- Whether `pack_order_items` calls `_generate_packing_slip_id` on this
attempt: exactly when the restored slip id is falsy (`if not packing_slip_id`). -/
def packGenCalls (handed : Option PackingCheckpoint) : Nat :=
  if strTruthy (packSlipIn handed) then 0 else 1

/-- The slip id used by this attempt: the restored one when truthy, otherwise
the freshly generated `fresh`. -/
def packSlip (handed : Option PackingCheckpoint) (fresh : String) : String :=
  if strTruthy (packSlipIn handed) then (packSlipIn handed).getD "" else fresh

/-- The heartbeat sent immediately after acquiring a fresh slip id, before
any packing work: `PackingCheckpoint(-1, "not_started", slip)`. -/
def packSlipHb (slip : String) : PackingCheckpoint :=
  ⟨-1, "not_started", some slip⟩

/-- Heartbeats sent before the packing loop: the acquire-slip heartbeat when
a fresh id was generated, nothing otherwise. -/
def packInitHbs (handed : Option PackingCheckpoint) (fresh : String) :
    List PackingCheckpoint :=
  if strTruthy (packSlipIn handed) then [] else [packSlipHb fresh]

/-- Item indices the packing loop visits: `range(start_idx, total_items)`
(for the non-negative `start_idx` every checkpoint this code produces
yields). -/
def packIndices (start : Int) (total : Nat) : List Nat :=
  (List.range total).drop start.toNat

/-- One heartbeat per packed item, carrying that item's index, sku and the
attempt's slip id. -/
def packLoopHbs (items : List String) (start : Int) (slip : String) :
    List PackingCheckpoint :=
  (packIndices start items.length).map
    (fun idx => ⟨Int.ofNat idx, items.getD idx "", some slip⟩)

/-- All heartbeats of one completed `pack_order_items` attempt. -/
def packAllHbs (items : List String) (handed : Option PackingCheckpoint)
    (fresh : String) : List PackingCheckpoint :=
  packInitHbs handed fresh ++
    packLoopHbs items (packStart handed) (packSlip handed fresh)

/-- Heartbeats of an attempt that crashes after packing `j` items (the first
await point is the per-item sleep, so the acquire-slip heartbeat, which
precedes it, is always delivered). -/
def packCrashedHbs (items : List String) (handed : Option PackingCheckpoint)
    (fresh : String) (j : Nat) : List PackingCheckpoint :=
  packInitHbs handed fresh ++
    (packLoopHbs items (packStart handed) (packSlip handed fresh)).take j

/-- The indices this attempt actually packs. -/
def packProcessed (items : List String) (handed : Option PackingCheckpoint) :
    List Nat :=
  packIndices (packStart handed) items.length

/-- The return value of a completed attempt:
`f"Packed {total_items} items (slip: {packing_slip_id})"`. -/
def packResult (items : List String) (handed : Option PackingCheckpoint)
    (fresh : String) : String :=
  s!"Packed {items.length} items (slip: {packSlip handed fresh})"

/-- Multi-attempt trace of `pack_order_items` on one logical thread: each
entry of `crashes` is an attempt crashing after that many packed items, the
final entry of the trace is a completed attempt; the host hands back the last
received heartbeat (unchanged when a crashed attempt sent none).  Returns the
total number of `_generate_packing_slip_id` calls, all heartbeats in order,
and the final attempt's return value. -/
def packTrace (items : List String) (fresh : String) :
    Option PackingCheckpoint → List Nat → Nat × List PackingCheckpoint × String
  | handed, [] =>
      (packGenCalls handed, packAllHbs items handed fresh,
        packResult items handed fresh)
  | handed, j :: rest =>
      let hbs := packCrashedHbs items handed fresh j
      let next :=
        match hbs.getLast? with
        | some h => some h
        | none => handed
      let (g, tl) := packTrace items fresh next rest
      (packGenCalls handed + g, hbs ++ tl.1, tl.2)

/-! ### Order activities (`order_fulfillment/activities.py`) -/

/-- `Order` from `order_fulfillment/shared.py`. -/
structure Order where
  order_id : String
  item : String
  quantity : Nat
  credit_card_expiry : String
  items_to_pack : List String := []
deriving Repr, DecidableEq

/-- `str.split("/")` on the character list: groups between `'/'`
separators. -/
def splitSlash : List Char → List (List Char)
  | [] => [[]]
  | c :: rest =>
      let r := splitSlash rest
      if c = '/' then [] :: r
      else
        match r with
        | [] => [[c]]
        | g :: gs => (c :: g) :: gs

/-- The numeric value of a decimal digit. -/
def digitVal (c : Char) : Option Nat :=
  if '0' ≤ c ∧ c ≤ '9' then some (c.toNat - '0'.toNat) else none

/-- Accumulate decimal digits; `none` on a non-digit (Python `int` raises). -/
def parseNatAux : List Char → Nat → Option Nat
  | [], acc => some acc
  | c :: rest, acc =>
      match digitVal c with
      | some d => parseNatAux rest (acc * 10 + d)
      | none => none

/-- Python `int` on a digit string. -/
def parseNatChars : List Char → Option Nat
  | [] => none
  | cs => parseNatAux cs 0

/-- `map(int, order.credit_card_expiry.split("/"))` unpacked into
`(exp_month, exp_year)`; `none` when the string is not two `/`-separated
numbers (Python would raise). -/
def parseExpiry (s : String) : Option (Nat × Nat) :=
  match splitSlash s.toList with
  | [m, y] =>
      match parseNatChars m, parseNatChars y with
      | some mm, some yy => some (mm, yy)
      | _, _ => none
  | _ => none

/-- `process_payment`: rejects an expired card with `ApplicationError`,
otherwise returns the success string.  `nowY`/`nowM` stand for
`datetime.datetime.now()`. -/
def process_payment (order : Order) (nowY nowM : Nat) : Except String String :=
  match parseExpiry order.credit_card_expiry with
  | none => .error "invalid expiry format"
  | some (em, ey) =>
      let ey := ey + 2000
      if ey < nowY ∨ (ey = nowY ∧ em < nowM) then
        .error "Invalid credit card expiry"
      else
        .ok s!"Payment processed for order {order.order_id}"

/-- `reserve_inventory` at a given host attempt number: with
`inventory_down`, attempts `≤ 4` raise `ApplicationError` and attempt `≥ 5`
succeeds with the recovered message; without it, it always succeeds. -/
def reserve_inventory (order : Order) (inventory_down : Bool) (attempt : Nat) :
    Except String String :=
  if inventory_down then
    if attempt ≤ 4 then
      .error s!"Inventory service down (attempt {attempt})"
    else
      .ok s!"Inventory reserved for order {order.order_id} (recovered after {attempt} attempts)"
  else
    .ok s!"Inventory reserved for order {order.order_id}"

/-- `deliver_order`. -/
def deliver_order (order : Order) : Except String String :=
  .ok s!"Order {order.order_id} delivered"

/-! ### ResearchAgentWorkflow (`langgraph_agent/workflow.py`) -/

/-- `ApprovalResponse`: the payload recorded by the `approve_research`
signal handler. -/
structure ApprovalResponse where
  approved : Bool
  feedback : String
deriving Repr, DecidableEq

/-- The `approve_research` signal handler: unconditionally stores the new
payload in `self.approval_response`. -/
def approve_research (_st : Option ApprovalResponse) (approved : Bool)
    (feedback : String) : Option ApprovalResponse :=
  some ⟨approved, feedback⟩

/-- What one `run_langgraph_agent` activity execution reports back to the
workflow: whether the graph interrupted, and the final report. -/
structure ActivityResult where
  interrupted : Bool
  final_report : String
deriving Repr, DecidableEq

/-- The `resume_value` the workflow embeds into the activity input:
the stored signal payload, if any. -/
def resumeValueOf (st : Option ApprovalResponse) : Option (Bool × String) :=
  match st with
  | some r => some (r.approved, r.feedback)
  | none => none

/-- The expiry result of `ResearchAgentWorkflow.run`. -/
def researchExpiry : String :=
  "Research expired: approval not received within 30 minutes"

/-- `ResearchAgentWorkflow.run`: the retry loop over activity executions.
`results` supplies each successive activity's outcome; `signals` supplies,
for each wait that actually blocks (i.e. enters `wait_condition` with
`approval_response` still `None`), either the signal delivered before the
timeout or `none` for timeout.  Returns the list of `resume_value`s embedded
into the dispatched activity inputs, and the workflow result (`none` if the
supplied environment ends before the workflow does).

When `approval_response` is already set, `wait_condition` returns
immediately without consuming a signal; the code never resets
`approval_response` to `None`. -/
def researchRun :
    Option ApprovalResponse → List ActivityResult → List (Option ApprovalResponse) →
    List (Option (Bool × String)) × Option String
  | _, [], _ => ([], none)
  | st, r :: rs, sigs =>
      let dispatched := resumeValueOf st
      if r.interrupted = false then
        ([dispatched], some r.final_report)
      else
        match st with
        | some _ =>
            let (ds, res) := researchRun st rs sigs
            (dispatched :: ds, res)
        | none =>
            match sigs with
            | [] => ([dispatched], some researchExpiry)
            | none :: _ => ([dispatched], some researchExpiry)
            | some p :: ss =>
                let (ds, res) :=
                  researchRun (approve_research none p.approved p.feedback) rs ss
                (dispatched :: ds, res)

/-! ### OrderWorkflow (`order_fulfillment/workflow.py`) -/

/-- `OrderWorkflow.run`: payment, inventory reservation (retried by the host
until it succeeds: attempt 5 when `inventory_down`, attempt 1 otherwise),
optional packing, then the 30-second wait for the `approve_order` signal.
`approvedInTime` is whether the signal arrives before the timeout; on timeout
the workflow returns `"Order expired"` normally. -/
def OrderWorkflow.run (order : Order) (inventory_down : Bool)
    (nowY nowM : Nat) (fresh_slip : String) (approvedInTime : Bool) :
    Except String String := do
  let _ ← process_payment order nowY nowM
  let _ ← reserve_inventory order inventory_down (if inventory_down then 5 else 1)
  let _pack :=
    if order.items_to_pack.isEmpty then none
    else some (packResult order.items_to_pack none fresh_slip)
  if approvedInTime then do
    let _ ← deliver_order order
    return "Order fulfilled"
  else
    return "Order expired"

/-! ### Helper lemmas -/

theorem sleepingLoop_yields (s : ℚ) :
    ∀ (l : List Nat) (st : SleepingState),
      (sleepingLoop s st l).2 =
        l.map (fun i => (⟨i, "sleep_" ++ toString i, none⟩ : StepResult))
  | [], _ => rfl
  | step :: rest, st => by
      simp only [sleepingLoop, List.map_cons]
      exact congrArg _ (sleepingLoop_yields s rest _)

theorem sleepingLoop_total (s : ℚ) :
    ∀ (l : List Nat) (st : SleepingState),
      (sleepingLoop s st l).1.total_sleep_time =
        st.total_sleep_time + l.length * s
  | [], st => by simp [sleepingLoop]
  | step :: rest, st => by
      simp only [sleepingLoop, List.length_cons]
      rw [sleepingLoop_total s rest]
      push_cast
      ring

theorem sleepingLoop_completed (s : ℚ) :
    ∀ (l : List Nat) (st : SleepingState),
      (sleepingLoop s st l).1.steps_completed = l.getLastD st.steps_completed
  | [], _ => rfl
  | step :: rest, st => by
      simp only [sleepingLoop, List.getLastD_cons]
      exact sleepingLoop_completed s rest _

theorem range'_one_getLastD : ∀ (n k : Nat), (List.range' (k + 1) n).getLastD k = k + n
  | 0, _ => rfl
  | n + 1, k => by
      rw [List.range'_succ, List.getLastD_cons, range'_one_getLastD n (k + 1)]
      omega

/-! ### C9: SleepingAdapter.run yields and final output -/

/-- C9: for `num_steps = n` and `sleep_seconds = s`, `SleepingAdapter.run`
(started on the state `setup` produced) yields exactly `n` `StepResult`s, the
i-th having `step_number = i`, `step_name = "sleep_i"`, `checkpoint_id = none`,
and after the run `get_final_output` returns `steps_completed = n` and
`total_sleep_time = n * s`. -/
theorem C9_sleeping_run_spec (n : Nat) (s : ℚ) (st : SleepingState)
    (thread : String) (cp : Option AgentCheckpoint) :
    (SleepingAdapter.run (SleepingAdapter.setup st thread cp) ⟨s, n⟩).2 =
      (List.range' 1 n).map
        (fun i => (⟨i, "sleep_" ++ toString i, none⟩ : StepResult))
    ∧ (SleepingAdapter.run (SleepingAdapter.setup st thread cp) ⟨s, n⟩).2.length = n
    ∧ SleepingAdapter.get_final_output
        (SleepingAdapter.run (SleepingAdapter.setup st thread cp) ⟨s, n⟩).1 =
      ⟨n, n * s⟩ := by
  refine ⟨sleepingLoop_yields s _ _, ?_, ?_⟩
  · simp only [SleepingAdapter.run]
    rw [sleepingLoop_yields s _ _]
    simp
  · unfold SleepingAdapter.get_final_output
    have h1 := sleepingLoop_completed s (List.range' 1 n)
      ({ SleepingAdapter.setup st thread cp with sleep_seconds := s, num_steps := n })
    have h2 := sleepingLoop_total s (List.range' 1 n)
      ({ SleepingAdapter.setup st thread cp with sleep_seconds := s, num_steps := n })
    simp only [SleepingAdapter.run]
    rw [SleepingOutput.mk.injEq]
    constructor
    · rw [h1]
      have : (SleepingAdapter.setup st thread cp).steps_completed = 0 := rfl
      rw [show ({ SleepingAdapter.setup st thread cp with
            sleep_seconds := s, num_steps := n } : SleepingState).steps_completed = 0
          from rfl]
      simpa using range'_one_getLastD n 0
    · rw [h2]
      rw [show ({ SleepingAdapter.setup st thread cp with
            sleep_seconds := s, num_steps := n } : SleepingState).total_sleep_time = 0
          from rfl]
      simp

/-! ### C10: reserve_inventory progressive failure -/

/-- C10: with `inventory_down = true`, `reserve_inventory` raises
`ApplicationError` on every attempt `≤ 4` and returns the recovered success
string on every attempt `≥ 5`; with `inventory_down = false` it always
returns the plain success string. -/
theorem C10_reserve_inventory_spec (order : Order) (attempt : Nat) :
    (attempt ≤ 4 →
      reserve_inventory order true attempt =
        .error s!"Inventory service down (attempt {attempt})")
    ∧ (5 ≤ attempt →
      reserve_inventory order true attempt =
        .ok s!"Inventory reserved for order {order.order_id} (recovered after {attempt} attempts)")
    ∧ reserve_inventory order false attempt =
        .ok s!"Inventory reserved for order {order.order_id}" := by
  refine ⟨fun h => ?_, fun h => ?_, rfl⟩
  · simp [reserve_inventory, h]
  · simp [reserve_inventory]
    omega

/-- Witness for C10 at concrete attempts 3 and 5. -/
theorem C10_witness :
    reserve_inventory ⟨"o1", "widget", 1, "12/30", []⟩ true 3 =
      .error "Inventory service down (attempt 3)"
    ∧ reserve_inventory ⟨"o1", "widget", 1, "12/30", []⟩ true 5 =
      .ok "Inventory reserved for order o1 (recovered after 5 attempts)"
    ∧ reserve_inventory ⟨"o1", "widget", 1, "12/30", []⟩ false 1 =
      .ok "Inventory reserved for order o1" :=
  ⟨(C10_reserve_inventory_spec ⟨"o1", "widget", 1, "12/30", []⟩ 3).1 (by decide),
   (C10_reserve_inventory_spec ⟨"o1", "widget", 1, "12/30", []⟩ 5).2.1 (by decide),
   (C10_reserve_inventory_spec ⟨"o1", "widget", 1, "12/30", []⟩ 1).2.2⟩

/-! ### C4: non-checkpoint-capable adapters restart from zero -/

/-- C4: on a retried attempt with a non-checkpoint-capable adapter, the
Runner discards the inherited checkpoint, the attempt's first heartbeat
carries `progress_count = 0`, `SleepingAdapter.setup` resets both internal
counters to zero, and the run re-executes all steps from step 1 regardless of
the prior progress in the inherited checkpoint. -/
theorem C4_non_checkpointing_restart (thread : String) (c : AgentCheckpoint)
    (st : SleepingState) (cp : Option AgentCheckpoint) (n : Nat) (s : ℚ)
    (steps : List StepResult) :
    restoredFor (some c) SleepingAdapter.supports_checkpointing = none
    ∧ ((runnerAttemptHbs thread (some c) SleepingAdapter.supports_checkpointing
          steps).headD (freshCheckpoint thread)).superstep_count = 0
    ∧ (SleepingAdapter.setup st thread cp).steps_completed = 0
    ∧ (SleepingAdapter.setup st thread cp).total_sleep_time = 0
    ∧ (SleepingAdapter.run (SleepingAdapter.setup st thread cp) ⟨s, n⟩).2.map
        StepResult.step_number = List.range' 1 n := by
  refine ⟨rfl, rfl, rfl, rfl, ?_⟩
  rw [show (SleepingAdapter.run (SleepingAdapter.setup st thread cp) ⟨s, n⟩).2 =
      (sleepingLoop s _ (List.range' 1 n)).2 from rfl, sleepingLoop_yields]
  simp only [List.map_map]
  have hcomp : (StepResult.step_number ∘ fun i =>
      ({ step_number := i, step_name := "sleep_" ++ toString i,
         checkpoint_id := none } : StepResult)) = id := rfl
  rw [hcomp, List.map_id]

/-! ### C7: per-step checkpoint update and immediate heartbeats -/

/-- C7 counterexample: a yielded `StepResult` whose `checkpoint_id` is
present (`some ""`, not absent) is nevertheless not adopted into the
checkpoint — the runner's `if step_result.checkpoint_id:` treats the empty
string like an absent id, so the claim "adopts the checkpoint_id when it is
present" fails. -/
theorem C7_counterexample :
    (⟨1, "node", some ""⟩ : StepResult).checkpoint_id ≠ none
    ∧ (applyStep ⟨"t", some "old", 0, none⟩ ⟨1, "node", some ""⟩).checkpoint_id =
        some "old" := by
  exact ⟨by decide, rfl⟩

/-- C7 (amended): for every yielded `StepResult` the runner overwrites
`superstep_count` and `current_node` from it, adopts its `checkpoint_id` when
that id is present and non-empty, leaves the checkpoint's id unchanged when
it is absent or empty, and sends exactly one immediate heartbeat per yielded
`StepResult`. -/
theorem C7_step_update_and_heartbeats (c : AgentCheckpoint) (s : StepResult)
    (ss : List StepResult) :
    (applyStep c s).superstep_count = s.step_number
    ∧ (applyStep c s).current_node = some s.step_name
    ∧ (strTruthy s.checkpoint_id = true →
        (applyStep c s).checkpoint_id = s.checkpoint_id)
    ∧ (strTruthy s.checkpoint_id = false →
        (applyStep c s).checkpoint_id = c.checkpoint_id)
    ∧ (stepHeartbeats c ss).length = ss.length := by
  refine ⟨rfl, rfl, fun h => ?_, fun h => ?_, ?_⟩
  · simp [applyStep, h]
  · simp [applyStep, h]
  · induction ss generalizing c with
    | nil => rfl
    | cons s' rest ih => simp [stepHeartbeats, ih]

/-- Witness for C7 at concrete inputs. -/
theorem C7_witness :
    (applyStep ⟨"t", none, 0, none⟩ ⟨3, "analyze", some "ck1"⟩).superstep_count = 3
    ∧ (applyStep ⟨"t", none, 0, none⟩ ⟨3, "analyze", some "ck1"⟩).checkpoint_id =
        some "ck1"
    ∧ (applyStep ⟨"t", some "ck0", 1, none⟩ ⟨2, "pack", none⟩).checkpoint_id =
        some "ck0"
    ∧ (stepHeartbeats ⟨"t", none, 0, none⟩
        [⟨1, "a", none⟩, ⟨2, "b", some "x"⟩]).length = 2 :=
  ⟨(C7_step_update_and_heartbeats ⟨"t", none, 0, none⟩ ⟨3, "analyze", some "ck1"⟩ []).1,
   (C7_step_update_and_heartbeats ⟨"t", none, 0, none⟩ ⟨3, "analyze", some "ck1"⟩ []).2.2.1
     (by decide),
   (C7_step_update_and_heartbeats ⟨"t", some "ck0", 1, none⟩ ⟨2, "pack", none⟩ []).2.2.2.1
     (by decide),
   (C7_step_update_and_heartbeats ⟨"t", none, 0, none⟩ ⟨1, "a", none⟩
     [⟨1, "a", none⟩, ⟨2, "b", some "x"⟩]).2.2.2.2⟩

/-! ### C1: the "resume with none" rule -/

/-- C1 counterexample: a non-absent checkpoint whose underlying store reports
no pending work remains (`state.next` empty).  The claim says this run passes
no fresh input downstream (streams with input `None`); the code does the
opposite — `_resuming = bool(state.next)` is `False`, so `run` streams the
fresh input dict. -/
theorem C1_counterexample :
    LangGraphAdapter.streamInput
      (LangGraphAdapter.setup "t" (some ⟨"t", some "ck", 5, some "analyze"⟩)
        ⟨[], some "ck"⟩)
      ⟨"q"⟩ ≠ none := by
  decide

/-- C1 (amended): given a non-absent checkpoint, `setup` restores the
superstep count and determines from the underlying store whether pending work
remains; the subsequent `run` passes no fresh input downstream (streams with
input `None`) exactly when the store reports pending work REMAINS — when the
store reports no pending work remains, `run` streams the fresh input dict. -/
theorem C1_resume_with_none (thread : String) (cp : AgentCheckpoint)
    (store : GraphStateSnapshot) (input : AgentInput) :
    (LangGraphAdapter.setup thread (some cp) store).resuming = !store.next.isEmpty
    ∧ (LangGraphAdapter.setup thread (some cp) store).superstep_count =
        cp.superstep_count
    ∧ (LangGraphAdapter.streamInput
        (LangGraphAdapter.setup thread (some cp) store) input = none ↔
          store.next ≠ []) := by
  refine ⟨rfl, rfl, ?_⟩
  unfold LangGraphAdapter.streamInput LangGraphAdapter.setup
  cases store.next <;> simp

/-! ### C5: the interrupt/resume signal state is never reset -/

/-- C5 counterexample: one signal is delivered, yet the workflow dispatches
it as `resume_value` on two successive attempts (the second wait finds
`approval_response` still set and consumes no new signal, because the code
never resets it).  Under the claim — reset to unset at the moment the resume
attempt is dispatched — the third dispatch could not embed the payload again
and the run would instead expire while waiting for a second signal. -/
theorem C5_counterexample :
    researchRun none
      [⟨true, "r1"⟩, ⟨true, "r2"⟩, ⟨false, "final report"⟩]
      [some ⟨true, "ok"⟩] =
    ([none, some (true, "ok"), some (true, "ok")], some "final report") := by
  rfl

/-- C5 (amended): the stored signal payload is mutated only by the
external-signal handler and is never reset when a new execution attempt is
dispatched: once set, the rest of the workflow run is independent of any
further signals (later waits complete immediately, consuming none), and every
subsequently dispatched attempt embeds the same payload as its
`resume_value`. -/
theorem C5_signal_never_reset (p : ApprovalResponse) (rs : List ActivityResult)
    (sigs : List (Option ApprovalResponse)) :
    researchRun (some p) rs sigs = researchRun (some p) rs []
    ∧ (researchRun (some p) rs sigs).1.all
        (fun d => d = some (p.approved, p.feedback)) = true := by
  induction rs generalizing sigs with
  | nil => exact ⟨rfl, rfl⟩
  | cons r rest ih =>
      by_cases h : r.interrupted = false
      · constructor
        · simp [researchRun, h]
        · simp [researchRun, h, resumeValueOf]
      · have h' : r.interrupted = true := by
          cases hr : r.interrupted
          · exact absurd hr h
          · rfl
        have hrec := (ih sigs).1
        have hall := (ih sigs).2
        constructor
        · simp only [researchRun, h', Bool.true_eq_false, if_false]
          rw [hrec]
        · simp only [researchRun, h', Bool.true_eq_false, if_false,
            List.all_cons, Bool.and_eq_true]
          exact ⟨by simp [resumeValueOf], hall⟩

/-! ### C8: expiry is a normal terminal result, never thrown -/

/-- C8: when the approval wait times out before any signal is observed, both
workflows terminate with a distinct expired-result value returned normally:
`ResearchAgentWorkflow.run` returns its expiry string (for a timed-out wait,
whether the signal environment is exhausted or explicitly reports a timeout),
and `OrderWorkflow.run` returns `.ok "Order expired"`, not an error, whenever
execution reaches the wait (i.e. payment succeeded). -/
theorem C8_expiry_normal_result (rep : String) (rest : List ActivityResult)
    (sigs : List (Option ApprovalResponse)) (order : Order) (down : Bool)
    (nowY nowM : Nat) (fresh : String) :
    (researchRun none (⟨true, rep⟩ :: rest) []).2 = some researchExpiry
    ∧ (researchRun none (⟨true, rep⟩ :: rest) (none :: sigs)).2 =
        some researchExpiry
    ∧ ((process_payment order nowY nowM).isOk = true →
        OrderWorkflow.run order down nowY nowM fresh false = .ok "Order expired") := by
  refine ⟨rfl, rfl, fun h => ?_⟩
  obtain ⟨v, hv⟩ : ∃ v, process_payment order nowY nowM = .ok v := by
    cases hp : process_payment order nowY nowM with
    | error e => rw [hp] at h; exact absurd h (by simp [Except.isOk, Except.toBool])
    | ok v => exact ⟨v, rfl⟩
  cases down <;>
    simp [OrderWorkflow.run, hv, reserve_inventory, bind, Except.bind,
      deliver_order, pure, Except.pure]

/-- Witness for C8 at a concrete order with a valid card and no signal. -/
theorem C8_witness :
    (researchRun none [⟨true, "draft"⟩] []).2 = some researchExpiry
    ∧ OrderWorkflow.run ⟨"o1", "widget", 1, "12/30", []⟩ false 2026 10 "SLIP-X" false =
        .ok "Order expired" :=
  ⟨(C8_expiry_normal_result "draft" [] [] ⟨"o1", "widget", 1, "12/30", []⟩ false
      2026 10 "SLIP-X").1,
   (C8_expiry_normal_result "draft" [] [] ⟨"o1", "widget", 1, "12/30", []⟩ false
      2026 10 "SLIP-X").2.2 (by decide)⟩

/-! ### C3: resume after a crash at step k is idempotent -/

theorem isEmpty_false_of_ne (s : String) (h : s ≠ "") : s.isEmpty = false := by
  cases he : s.isEmpty
  · rfl
  · exact absurd ((String.isEmpty_iff s).mp he) h

theorem strTruthy_of_ne (s : String) (h : s ≠ "") : strTruthy (some s) = true := by
  simp [strTruthy, isEmpty_false_of_ne s h]

theorem map_range_getLastD {α : Type} (f : Nat → α) (d : α) :
    ∀ k, 1 ≤ k → ((List.range k).map f).getLastD d = f (k - 1)
  | k + 1, _ => by
      rw [List.range_succ, List.map_append]
      simp only [List.map_cons, List.map_nil, List.getLastD_concat]
      simp

/-- The heartbeats of a fresh `pack_order_items` attempt that crashes after
packing `k ≤ n` items: the acquire-slip heartbeat followed by the first `k`
per-item heartbeats. -/
theorem packCrashedHbs_fresh (items : List String) (fresh : String) (k : Nat)
    (hk : k ≤ items.length) :
    packCrashedHbs items none fresh k =
      packSlipHb fresh ::
        (List.range k).map
          (fun idx =>
            (⟨Int.ofNat idx, items.getD idx "", some fresh⟩ : PackingCheckpoint)) := by
  simp only [packCrashedHbs, packInitHbs, packSlipIn, Option.bind, strTruthy,
    Bool.false_eq_true, if_false, packStart, packLoopHbs, packIndices, packSlip,
    Int.toNat_zero, List.drop_zero, List.cons_append, List.nil_append]
  rw [← List.map_take, List.take_range, Nat.min_eq_left hk]

/-- C3: for a checkpoint-capable task (`pack_order_items`) with a non-empty
generated slip id, a fresh attempt that fails after packing step `k`
(`1 ≤ k ≤ n`) last heartbeats the checkpoint `(k-1, items[k-1], slip)`; a
retried attempt handed that checkpoint produces a final output identical to
the uninterrupted run, executes only the steps after `k`, and acquires no new
slip id, while the uninterrupted run executes all steps. -/
theorem C3_resume_idempotent (items : List String) (fresh fresh2 : String)
    (k : Nat) (hfresh : fresh ≠ "") (hk1 : 1 ≤ k) (hk : k ≤ items.length) :
    (packCrashedHbs items none fresh k).getLastD (packSlipHb fresh) =
      ⟨Int.ofNat (k - 1), items.getD (k - 1) "", some fresh⟩
    ∧ packResult items
        (some ⟨Int.ofNat (k - 1), items.getD (k - 1) "", some fresh⟩) fresh2 =
      packResult items none fresh
    ∧ packProcessed items
        (some ⟨Int.ofNat (k - 1), items.getD (k - 1) "", some fresh⟩) =
      (List.range items.length).drop k
    ∧ packGenCalls
        (some ⟨Int.ofNat (k - 1), items.getD (k - 1) "", some fresh⟩) = 0
    ∧ packProcessed items none = List.range items.length := by
  have htr : strTruthy (packSlipIn
      (some ⟨Int.ofNat (k - 1), items.getD (k - 1) "", some fresh⟩)) = true :=
    strTruthy_of_ne fresh hfresh
  have hie : fresh.isEmpty = false := isEmpty_false_of_ne fresh hfresh
  have hstart : packStart
      (some ⟨Int.ofNat (k - 1), items.getD (k - 1) "", some fresh⟩) =
      Int.ofNat k := by
    simp only [packStart]
    rw [show Int.ofNat (k - 1) = ((k - 1 : Nat) : Int) from rfl,
      show Int.ofNat k = (k : Int) from rfl]
    omega
  refine ⟨?_, ?_, ?_, ?_, rfl⟩
  · rw [packCrashedHbs_fresh items fresh k hk, List.getLastD_cons,
      map_range_getLastD _ _ k hk1]
  · simp [packResult, packSlip, packSlipIn, strTruthy, hie]
  · simp only [packProcessed]
    rw [hstart]
    rfl
  · simp only [packGenCalls, htr, if_true]

/-- Witness for C3: three items, crash after step 2. -/
theorem C3_witness :
    (packCrashedHbs ["a", "b", "c"] none "SLIP-1" 2).getLastD (packSlipHb "SLIP-1") =
      ⟨Int.ofNat 1, "b", some "SLIP-1"⟩
    ∧ packResult ["a", "b", "c"] (some ⟨Int.ofNat 1, "b", some "SLIP-1"⟩) "SLIP-2" =
      packResult ["a", "b", "c"] none "SLIP-1"
    ∧ packProcessed ["a", "b", "c"] (some ⟨Int.ofNat 1, "b", some "SLIP-1"⟩) =
      [2] := by
  have h := C3_resume_idempotent ["a", "b", "c"] "SLIP-1" "SLIP-2" 2
    (by decide) (by decide) (by decide)
  exact ⟨h.1, h.2.1, h.2.2.1.trans (by rfl)⟩

/-! ### C6: the packing-slip id is acquired exactly once per thread -/

/-- Invariant carried along a packing trace: either no heartbeat has been
received yet, or the last received heartbeat carries the slip id. -/
def SlipInv (fresh : String) (handed : Option PackingCheckpoint) : Prop :=
  handed = none ∨ ∃ c, handed = some c ∧ c.packing_slip_id = some fresh

theorem packSlip_inv (handed : Option PackingCheckpoint) (fresh : String)
    (hfresh : fresh ≠ "") (hinv : SlipInv fresh handed) :
    packSlip handed fresh = fresh := by
  rcases hinv with h | ⟨c, hc, hs⟩
  · subst h; rfl
  · subst hc
    simp [packSlip, packSlipIn, hs, strTruthy_of_ne fresh hfresh]

theorem mem_packLoopHbs (items : List String) (start : Int) (slip : String) :
    ∀ hb ∈ packLoopHbs items start slip, hb.packing_slip_id = some slip := by
  intro hb hm
  simp only [packLoopHbs, List.mem_map] at hm
  obtain ⟨idx, _, rfl⟩ := hm
  rfl

theorem mem_packInitHbs (handed : Option PackingCheckpoint) (fresh : String) :
    ∀ hb ∈ packInitHbs handed fresh, hb.packing_slip_id = some fresh := by
  intro hb hm
  unfold packInitHbs at hm
  by_cases h : strTruthy (packSlipIn handed) = true
  · simp [h] at hm
  · rw [if_neg h] at hm
    simp only [List.mem_singleton] at hm
    subst hm
    rfl

theorem mem_packCrashedHbs (items : List String)
    (handed : Option PackingCheckpoint) (fresh : String) (j : Nat)
    (hfresh : fresh ≠ "") (hinv : SlipInv fresh handed) :
    ∀ hb ∈ packCrashedHbs items handed fresh j,
      hb.packing_slip_id = some fresh := by
  intro hb hm
  unfold packCrashedHbs at hm
  rcases List.mem_append.mp hm with h | h
  · exact mem_packInitHbs handed fresh hb h
  · have h' := List.take_subset j _ h
    have := mem_packLoopHbs items (packStart handed) (packSlip handed fresh) hb h'
    rw [this, packSlip_inv handed fresh hfresh hinv]

theorem packTrace_inv (items : List String) (fresh : String)
    (hfresh : fresh ≠ "") :
    ∀ (crashes : List Nat) (handed : Option PackingCheckpoint),
      SlipInv fresh handed →
      (packTrace items fresh handed crashes).1 =
        (match handed with | none => 1 | some _ => 0)
      ∧ (∀ hb ∈ (packTrace items fresh handed crashes).2.1,
          hb.packing_slip_id = some fresh)
      ∧ (packTrace items fresh handed crashes).2.2 =
          s!"Packed {items.length} items (slip: {fresh})"
  | [], handed => by
      intro hinv
      refine ⟨?_, ?_, ?_⟩
      · rcases hinv with h | ⟨c, hc, hs⟩
        · subst h; rfl
        · subst hc
          simp [packTrace, packGenCalls, packSlipIn, hs,
            strTruthy_of_ne fresh hfresh]
      · intro hb hm
        simp only [packTrace, packAllHbs] at hm
        rcases List.mem_append.mp hm with h | h
        · exact mem_packInitHbs handed fresh hb h
        · have := mem_packLoopHbs items (packStart handed)
            (packSlip handed fresh) hb h
          rw [this, packSlip_inv handed fresh hfresh hinv]
      · simp only [packTrace, packResult,
          packSlip_inv handed fresh hfresh hinv]
  | j :: rest, handed => by
      intro hinv
      have hnextinv : SlipInv fresh
          (match (packCrashedHbs items handed fresh j).getLast? with
           | some h => some h
           | none => handed) := by
        cases hl : (packCrashedHbs items handed fresh j).getLast? with
        | none => simpa [hl] using hinv
        | some h =>
            right
            exact ⟨h, rfl, mem_packCrashedHbs items handed fresh j hfresh hinv h
              (List.mem_of_getLast?_eq_some hl)⟩
      have ih := packTrace_inv items fresh hfresh rest _ hnextinv
      refine ⟨?_, ?_, ?_⟩
      · rcases hinv with h | ⟨c, hc, hs⟩
        · subst h
          have hne : (packCrashedHbs items none fresh j).getLast? ≠ none := by
            simp only [ne_eq, List.getLast?_eq_none_iff]
            simp [packCrashedHbs, packInitHbs, packSlipIn, strTruthy]
          cases hl : (packCrashedHbs items none fresh j).getLast? with
          | none => exact absurd hl hne
          | some h =>
              simp only [packTrace, hl]
              rw [show packGenCalls none = 1 from rfl]
              have := ih.1
              simp only [hl] at this ⊢
              omega

        · subst hc
          have hg : packGenCalls (some c) = 0 := by
            simp [packGenCalls, packSlipIn, hs, strTruthy_of_ne fresh hfresh]
          simp only [packTrace, hg]
          cases hl : (packCrashedHbs items (some c) fresh j).getLast? with
          | none =>
              have := ih.1
              simp only [hl] at this ⊢
              omega
          | some h =>
              have := ih.1
              simp only [hl] at this ⊢
              omega
      · intro hb hm
        simp only [packTrace] at hm
        rcases List.mem_append.mp hm with h | h
        · exact mem_packCrashedHbs items handed fresh j hfresh hinv hb h
        · exact ih.2.1 hb h
      · simp only [packTrace]
        exact ih.2.2

/-- C6: across all attempts of one `pack_order_items` thread (the first
attempt fresh, every retry handed the last received heartbeat),
`_generate_packing_slip_id` is called exactly once; the very first heartbeat
of the thread is the acquire-slip heartbeat sent before any packing work;
every heartbeat of every attempt carries the same slip id verbatim; and the
final output embeds that id. -/
theorem C6_slip_acquired_once (items : List String) (fresh : String)
    (crashes : List Nat) (hfresh : fresh ≠ "") :
    (packTrace items fresh none crashes).1 = 1
    ∧ (∀ hb ∈ (packTrace items fresh none crashes).2.1,
        hb.packing_slip_id = some fresh)
    ∧ (packTrace items fresh none crashes).2.1.headD (packSlipHb fresh) =
        packSlipHb fresh
    ∧ (packTrace items fresh none crashes).2.2 =
        s!"Packed {items.length} items (slip: {fresh})" := by
  have h := packTrace_inv items fresh hfresh crashes none (Or.inl rfl)
  refine ⟨h.1, h.2.1, ?_, h.2.2⟩
  cases crashes with
  | nil => simp [packTrace, packAllHbs, packInitHbs, packSlipIn, strTruthy]
  | cons j rest =>
      simp [packTrace, packCrashedHbs, packInitHbs, packSlipIn, strTruthy]

/-- Witness for C6: two items, one crashed attempt after the first item. -/
theorem C6_witness :
    (packTrace ["a", "b"] "SLIP-X" none [1]).1 = 1
    ∧ (packTrace ["a", "b"] "SLIP-X" none [1]).2.1.headD (packSlipHb "SLIP-X") =
        packSlipHb "SLIP-X"
    ∧ (packTrace ["a", "b"] "SLIP-X" none [1]).2.2 =
        "Packed 2 items (slip: SLIP-X)" := by
  have h := C6_slip_acquired_once ["a", "b"] "SLIP-X" [1] (by decide)
  exact ⟨h.1, h.2.2.1, h.2.2.2⟩

/-! ### C2: progress_count monotonicity across attempts -/

theorem stepHeartbeats_counts :
    ∀ (ss : List StepResult) (c : AgentCheckpoint),
      (stepHeartbeats c ss).map AgentCheckpoint.superstep_count =
        ss.map StepResult.step_number
  | [], _ => rfl
  | s :: rest, c => by
      simp only [stepHeartbeats, List.map_cons]
      rw [show (applyStep c s).superstep_count = s.step_number from rfl]
      exact congrArg _ (stepHeartbeats_counts rest _)

theorem foldl_applyStep_count :
    ∀ (ss : List StepResult) (c : AgentCheckpoint),
      (ss.foldl applyStep c).superstep_count =
        (ss.map StepResult.step_number).getLastD c.superstep_count
  | [], _ => rfl
  | s :: rest, c => by
      simp only [List.foldl_cons, List.map_cons, List.getLastD_cons]
      rw [foldl_applyStep_count rest (applyStep c s)]
      rfl

theorem lgSteps_numbers :
    ∀ (evs : List (String × Option String)) (base : Nat),
      (lgSteps base evs).map StepResult.step_number =
        List.range' (base + 1) evs.length
  | [], _ => rfl
  | (nm, cid) :: rest, base => by
      simp only [lgSteps, List.map_cons, List.length_cons, List.range'_succ]
      exact congrArg _ (lgSteps_numbers rest (base + 1))

theorem range'_take :
    ∀ (n s k : Nat), (List.range' s n).take k = List.range' s (min k n)
  | 0, _, k => by simp
  | n + 1, s, 0 => by simp
  | n + 1, s, k + 1 => by
      rw [List.range'_succ, List.take_succ_cons, range'_take n (s + 1) k,
        Nat.succ_min_succ, List.range'_succ]

theorem chain'_le_range' :
    ∀ (m s : Nat), List.Chain' (· ≤ ·) (List.range' s m)
  | 0, _ => List.chain'_nil
  | m + 1, s => by
      rw [List.range'_succ, List.chain'_cons']
      refine ⟨?_, chain'_le_range' m (s + 1)⟩
      intro y hy
      cases m with
      | zero => simp at hy
      | succ m' =>
          rw [List.range'_succ] at hy
          simp only [List.head?_cons, Option.mem_def, Option.some.injEq] at hy
          omega

theorem cons_getLast?_eq {α : Type} (a : α) :
    ∀ l : List α, (a :: l).getLast? = some (l.getLastD a)
  | [] => rfl
  | b :: l => by
      rw [List.getLast?_cons_cons, cons_getLast?_eq b l, List.getLastD_cons]

/-- The progress counts of one checkpoint-capable attempt whose restored
checkpoint is `c0`: the restored count, then `base+1, ..., base+m` for the
`m` surviving steps. -/
theorem lgAttempt_counts (c0 : AgentCheckpoint)
    (evs : List (String × Option String)) (k : Nat) :
    (c0 :: stepHeartbeats c0 ((lgSteps c0.superstep_count evs).take k)).map
        AgentCheckpoint.superstep_count =
      c0.superstep_count ::
        List.range' (c0.superstep_count + 1) (min k evs.length) := by
  simp only [List.map_cons]
  rw [stepHeartbeats_counts, List.map_take, lgSteps_numbers, range'_take]

/-- The final checkpoint of such an attempt carries count `base + m`. -/
theorem lgAttempt_final_count (c0 : AgentCheckpoint)
    (evs : List (String × Option String)) (k : Nat) :
    (((lgSteps c0.superstep_count evs).take k).foldl applyStep c0).superstep_count =
      c0.superstep_count + min k evs.length := by
  rw [foldl_applyStep_count, List.map_take, lgSteps_numbers, range'_take]
  exact range'_one_getLastD (min k evs.length) _

theorem chain'_le_cons_range' (b m : Nat) :
    List.Chain' (· ≤ ·) (b :: List.range' (b + 1) m) := by
  rw [List.chain'_cons']
  refine ⟨?_, chain'_le_range' m (b + 1)⟩
  intro y hy
  cases m with
  | zero => simp at hy
  | succ m' =>
      rw [List.range'_succ] at hy
      simp only [List.head?_cons, Option.mem_def, Option.some.injEq] at hy
      omega

theorem lgTrace_chain (thread : String) :
    ∀ (attempts : List (List (String × Option String) × Nat))
      (handed : Option AgentCheckpoint),
      List.Chain' (· ≤ ·) (progressCounts (lgTrace thread handed attempts))
      ∧ ∀ y ∈ (progressCounts (lgTrace thread handed attempts)).head?,
          ((restoredFor handed true).getD
            (freshCheckpoint thread)).superstep_count ≤ y
  | [], handed => by
      constructor
      · exact List.chain'_nil
      · intro y hy
        simp [lgTrace, progressCounts] at hy
  | (evs, k) :: rest, handed => by
      have hunf : lgTrace thread handed ((evs, k) :: rest) =
          ((restoredFor handed true).getD (freshCheckpoint thread) ::
            stepHeartbeats ((restoredFor handed true).getD (freshCheckpoint thread))
              ((lgSteps ((restoredFor handed true).getD
                  (freshCheckpoint thread)).superstep_count evs).take k)) ++
          lgTrace thread
            (some (((lgSteps ((restoredFor handed true).getD
                (freshCheckpoint thread)).superstep_count evs).take k).foldl
              applyStep ((restoredFor handed true).getD (freshCheckpoint thread))))
            rest := rfl
      set c0 : AgentCheckpoint :=
        (restoredFor handed true).getD (freshCheckpoint thread) with hc0
      set cf : AgentCheckpoint :=
        ((lgSteps c0.superstep_count evs).take k).foldl applyStep c0 with hcf
      have ih := lgTrace_chain thread rest (some cf)
      have hres : ((restoredFor (some cf) true).getD
          (freshCheckpoint thread)).superstep_count = cf.superstep_count := rfl
      rw [hres] at ih
      have hfinal : cf.superstep_count =
          c0.superstep_count + min k evs.length := lgAttempt_final_count c0 evs k
      have hcounts : progressCounts (lgTrace thread handed ((evs, k) :: rest)) =
          (c0.superstep_count ::
            List.range' (c0.superstep_count + 1) (min k evs.length)) ++
          progressCounts (lgTrace thread (some cf) rest) := by
        rw [hunf]
        show List.map _ _ = _
        rw [List.map_append, lgAttempt_counts c0 evs k]
        rfl
      constructor
      · rw [hcounts]
        apply List.chain'_append.mpr
        refine ⟨chain'_le_cons_range' _ _, ih.1, ?_⟩
        intro x hx y hy
        rw [cons_getLast?_eq, Option.mem_def, Option.some.injEq,
          range'_one_getLastD (min k evs.length) _] at hx
        have hyle := ih.2 y hy
        omega
      · intro y hy
        rw [hcounts] at hy
        simp only [List.cons_append, List.head?_cons, Option.mem_def,
          Option.some.injEq] at hy
        omega

/-- C2 counterexample: one logical thread run with the non-checkpoint-capable
`SleepingAdapter`, two attempts, the host handing back the last received
heartbeat.  The first attempt heartbeats progress `0, 1, 2`; the retried
attempt discards the checkpoint and heartbeats `0` again — the thread's
heartbeat sequence `[0, 1, 2, 0, 1, 2]` is not monotonically non-decreasing,
so the claim fails for threads whose adapter does not support
checkpointing. -/
theorem C2_counterexample :
    (let a1 := runnerAttemptHbs "t" none SleepingAdapter.supports_checkpointing
        (SleepingAdapter.run
          (SleepingAdapter.setup SleepingAdapter.init "t" none) ⟨30, 2⟩).2
     let handed := a1.getLastD (freshCheckpoint "t")
     let a2 := runnerAttemptHbs "t" (some handed)
        SleepingAdapter.supports_checkpointing
        (SleepingAdapter.run
          (SleepingAdapter.setup SleepingAdapter.init "t" (some handed)) ⟨30, 2⟩).2
     progressCounts (a1 ++ a2) = [0, 1, 2, 0, 1, 2])
    ∧ ¬ List.Chain' (· ≤ ·) ([0, 1, 2, 0, 1, 2] : List Nat) := by
  refine ⟨by decide, ?_⟩
  intro h
  rw [List.chain'_cons, List.chain'_cons, List.chain'_cons] at h
  omega

/-- C2 (amended): for every logical thread run with the checkpoint-capable
LangGraph adapter — whose `run` numbers its steps upward from the restored
`superstep_count` — the `progress_count`s of all heartbeats the Runner sends,
across all attempts, are monotonically non-decreasing as observed by the
host, given that the host hands back the last received heartbeat on each
retried attempt (as encoded in `lgTrace`).  For a non-checkpoint-capable
adapter the invariant fails: progress regresses to 0 on retry. -/
theorem C2_progress_monotone_capable (thread : String)
    (attempts : List (List (String × Option String) × Nat)) :
    List.Chain' (· ≤ ·) (progressCounts (lgTrace thread none attempts)) :=
  (lgTrace_chain thread attempts none).1

end CheckpointRecovery
